import Mathlib

/-!
Model of the AIWorker orchestration routines of
`modules/AIWorker/backend/worker/functional.py`: the progress reporter
(`__get_message_fun`), model-state loading (`__load_model_state`), the
model-update fast path (`_call_update_model`), model-state averaging
(`_call_average_model_states`) and chunked inference (`_call_inference`).

Database effects are modelled by explicit row lists and action traces.
Python dictionaries (including the RealDictCursor rows returned by the
database layer, which are keyed by the column names of the SELECT list) are
modelled as association lists, so that access to a missing key is an explicit
`PyErr.keyError`.  Python numbers are modelled as rationals, binary blobs and
UUIDs as naturals.
-/

/-- Python-level runtime errors raised by the modelled code paths. -/
inductive PyErr where
  | keyError (k : String)
  | typeError
  | valueError
  | indexError
  | nameError
  deriving DecidableEq, Repr

/-- The `done` / `total` pair that `__on_message` (inside `__get_message_fun`,
functional.py lines 42-48) writes into the progress event when both reported
values are numeric: `trueTotal = total + offset`, raised to `cumulatedTotal`
when that is numeric; `done` is clamped to `trueTotal`, and the emitted
`total` is `max done trueTotal`. -/
def onMessageMeta (done total offset : Rat) (cumulatedTotal : Option Rat) : Rat × Rat :=
  let t1 := total + offset
  let trueTotal :=
    match cumulatedTotal with
    | some c => max t1 c
    | none => t1
  let d := min (done + offset) trueTotal
  (d, max d trueTotal)

/-- The stream of `(done, total)` pairs emitted by one reporter closure for a
sequence of numeric `(done, total)` invocations.  `__on_message` keeps no
state between invocations, so each event is a pure function of its call. -/
def emittedStream (calls : List (Rat × Rat)) (offset : Rat)
    (cumulatedTotal : Option Rat) : List (Rat × Rat) :=
  calls.map (fun p => onMessageMeta p.1 p.2 offset cumulatedTotal)

/-- Fuel-driven worker for `array_split`; the fuel is an upper bound on the
list length, so the structural recursion mirrors the helper's loop
`while len(arr) > size`. -/
def splitGo (size : Nat) : Nat → List α → List (List α)
  | 0, arr => [arr]
  | fuel + 1, arr =>
    if arr.length ≤ size ∨ size = 0 then [arr]
    else arr.take size :: splitGo size fuel (arr.drop size)

/-- Modelled from the spec: `array_split` from `util.helpers` is imported by
functional.py (line 31) but its source file is not part of the provided
sources.  The spec describes it as partitioning the id list into contiguous
chunks of `size` elements where only the last chunk may be smaller; callers
only invoke it with a positive `size`. -/
def array_split (arr : List α) (size : Nat) : List (List α) :=
  splitGo size arr.length arr

/-- A row of the per-project `cnnstate` table, as used by the routines:
the columns touched are `id`, `timeCreated`, `partial` (here `isPartial`),
`model_library`, `alcriterion_library`, `stateDict` and `stats` (a JSON
object of numeric values, or NULL).  The creation time is modelled as a
non-null integer. -/
structure CnnStateRow where
  id : Nat
  timeCreated : Int
  isPartial : Bool
  modelLib : String
  criterionLib : String
  stateDict : Nat
  stats : Option (List (String × Rat))
  deriving DecidableEq, Repr

/-- A row of the per-project `labelclass` table (only the creation time is
consulted by the modelled code). -/
structure LabelClassRow where
  id : Nat
  timeCreated : Int
  deriving DecidableEq, Repr

/-- `ORDER BY timecreated DESC ... LIMIT 1` over a row list: returns a row of
maximal creation time (the first such row in list order; SQL leaves the
choice among ties unspecified). -/
def pickLatest : List CnnStateRow → Option CnnStateRow
  | [] => none
  | r :: rest =>
    match pickLatest rest with
    | none => some r
    | some b => if r.timeCreated < b.timeCreated then some b else some r

/-- `__load_model_state` (functional.py lines 66-88): the single query
`SELECT statedict, id ... WHERE model_library = %s ORDER BY timecreated DESC
LIMIT 1` — note that it does not restrict the `partial` flag.  Returns the
selected row; `none` models the force-creation-of-a-new-model case. -/
def latestState (store : List CnnStateRow) (lib : String) : Option CnnStateRow :=
  pickLatest (store.filter (fun r => r.modelLib == lib))

/-- `MAX(timeCreated)` over a row list (`none` models SQL NULL on an empty
set). -/
def maxTimeList : List CnnStateRow → Option Int
  | [] => none
  | r :: rest =>
    match maxTimeList rest with
    | none => some r.timeCreated
    | some m => some (max r.timeCreated m)

/-- `SELECT MAX(timeCreated) FROM cnnstate WHERE model_library = %s`
(the subquery of the fast-path check in `_call_update_model`, lines 186-191);
it ranges over all state rows for the library, whatever their `partial`
flag. -/
def maxTimeFor (states : List CnnStateRow) (lib : String) : Option Int :=
  maxTimeList (states.filter (fun r => r.modelLib == lib))

/-- Stated from the spec's words, for comparison with the code: the
"latest non-partial commit's timestamp" for a library. -/
def specLatestNonPartialTime (states : List CnnStateRow) (lib : String) : Option Int :=
  maxTimeList (states.filter (fun r => !r.isPartial && r.modelLib == lib))

/-- Observable outcome of one `_call_update_model` run: whether the adapter's
`update_model` was invoked, which loads happened, whether a state row was
committed, and whether the run reported SUCCESS. -/
structure UpdateOutcome where
  adapterCalled : Bool
  stateLoaded : Bool
  metaLoaded : Bool
  committed : Bool
  success : Bool
  deriving DecidableEq, Repr

/-- `_call_update_model` (functional.py lines 164-244).  The missing-
capability branch (line 174) reports SUCCESS without touching the store.
The fast-path check (lines 180-201) runs the double COUNT query: `count1`
counts the library's state rows, `count2` counts label classes with
`timeCreated >= MAX(timeCreated)` over the library's state rows (all of
them, partial or not); when `count1 > 0 and count2 == 0` it reports SUCCESS
and returns.  Otherwise state and metadata are loaded, the adapter's
`update_model` runs and its result is committed with `partial = False`
(adapter and commit are modelled as succeeding; their failures are
re-raised, not claimed here). -/
def runUpdateModel (states : List CnnStateRow) (classes : List LabelClassRow)
    (lib : String) (hasUpdate : Bool) : UpdateOutcome :=
  if !hasUpdate then
    ⟨false, false, false, false, true⟩
  else
    let count1 := (states.filter (fun r => r.modelLib == lib)).length
    let count2 : Nat :=
      match maxTimeFor states lib with
      | none => 0
      | some m => (classes.filter (fun c => decide (m ≤ c.timeCreated))).length
    if 0 < count1 ∧ count2 = 0 then
      ⟨false, false, false, false, true⟩
    else
      ⟨true, true, true, true, true⟩

/-- Value of one column of a row returned by the state-averaging SELECT
(`SELECT stateDict, statistics, model_library, alcriterion_library`,
functional.py lines 341-345). -/
inductive AVal where
  | blob (b : Nat)
  | statsJson (s : Option (List (String × Rat)))
  | libName (s : String)
  deriving DecidableEq, Repr

/-- The RealDictCursor row produced for a `cnnstate` table row by the
averaging SELECT: the dictionary is keyed by the column names of the SELECT
list, i.e. `statedict`, `statistics`, `model_library` and
`alcriterion_library` (the stored stats payload is what the selected second
column binds to). -/
def avgQueryRow (r : CnnStateRow) : List (String × AVal) :=
  [("statedict", AVal.blob r.stateDict),
   ("statistics", AVal.statsJson r.stats),
   ("model_library", AVal.libName r.modelLib),
   ("alcriterion_library", AVal.libName r.criterionLib)]

/-- Python dictionary subscription `row[key]`: a missing key raises
`KeyError(key)`. -/
def pyGet (row : List (String × AVal)) (key : String) : Except PyErr AVal :=
  match row.lookup key with
  | some v => .ok v
  | none => .error (PyErr.keyError key)

/-- The list comprehension of functional.py line 368,
`[json.loads(qr['stats']) for qr in queryResult if qr['stats'] is not None]`:
for each result row, `qr['stats']` is evaluated first (a dictionary access by
the string key `stats`); rows whose value is NULL are skipped, the rest are
JSON-decoded (modelled as the identity on the structured stats payload). -/
def avgStatsDicts : List (List (String × AVal)) → Except PyErr (List (List (String × Rat)))
  | [] => .ok []
  | qr :: rest =>
    match pyGet qr "stats" with
    | .error e => .error e
    | .ok v =>
      match v with
      | AVal.statsJson (some d) =>
        match avgStatsDicts rest with
        | .error e => .error e
        | .ok ds => .ok (d :: ds)
      | AVal.statsJson none => avgStatsDicts rest
      | _ => .error PyErr.typeError

/-- `np.nanmean` over a list of (non-NaN) numeric values. -/
def nanmean (vals : List Rat) : Rat :=
  vals.sum / (vals.length : Rat)

/-- The key set of functional.py lines 369-370 (union of the keys of all
stats dictionaries; the Python `set` has no specified order, modelled as
first-occurrence order). -/
def statsKeys (dicts : List (List (String × Rat))) : List String :=
  ((dicts.map (fun d => d.map Prod.fst)).flatten).dedup

/-- The per-key reduction of functional.py lines 371-372:
`stats_avg[key] = np.nanmean([d[key] for d in dicts if key in d])` —
the mean ranges only over the dictionaries that carry the key. -/
def statsAvg (dicts : List (List (String × Rat))) : List (String × Rat) :=
  (statsKeys dicts).map (fun k => (k, nanmean (dicts.filterMap (fun d => d.lookup k))))

/-- Database actions issued by `_call_average_model_states`: the fused-state
INSERT (lines 385-389) and the purge `DELETE FROM cnnstate WHERE partial IS
TRUE` (lines 397-400; note the DELETE carries no model-library filter). -/
inductive AvgAct where
  | commitFused
  | purgePartials
  deriving DecidableEq, Repr

/-- `_call_average_model_states` (functional.py lines 328-409) for a given
store and model library: its issued database actions and the Python error, if
one is raised.  The SELECT keeps the rows flagged partial for the library
(line 344); an empty result is the SUCCESS no-op (lines 351-355); otherwise
the state dicts are extracted by `qr['statedict']` and fused by the adapter
(modelled as succeeding — its failure is re-raised and not claimed), the
stats are reduced via `avgStatsDicts` / `statsAvg`, and only then the fused
INSERT and the purge DELETE are issued, in that order. -/
def runAverage (store : List CnnStateRow) (lib : String) : List AvgAct × Option PyErr :=
  let queryResult := (store.filter (fun r => r.isPartial && r.modelLib == lib)).map avgQueryRow
  match queryResult with
  | [] => ([], none)
  | q :: qs =>
    match avgStatsDicts (q :: qs) with
    | .error e => ([], some e)
    | .ok dicts =>
      let _stats_avg := statsAvg dicts
      ([AvgAct.commitFused, AvgAct.purgePartials], none)

/-- Values appearing in a prediction dictionary or in a projected storage
row: NULL, a number, a UUID reference, a raw 2D label array, or the
base64-encoded raveled mask bytes written for segmentation masks. -/
inductive PVal where
  | vNull
  | vNum (q : Rat)
  | vId (n : Nat)
  | vArr (a : List (List Nat))
  | vMaskEnc (bytes : List Nat)
  deriving DecidableEq, Repr

/-- A single prediction as returned by the model adapter: a Python dict. -/
abbrev PyDict := List (String × PVal)

/-- The per-image part of an inference result:
`{ 'predictions': [...], 'fVec'?: bytes }`. -/
structure ImgResult where
  predictions : List PyDict
  fVec : Option (List Nat)
  deriving DecidableEq, Repr

/-- The full inference result, `{ imageId: ImgResult }`, in dictionary
insertion order. -/
abbrev ResultMap := List (Nat × ImgResult)

/-- The project-wide prediction type resolved at the start of
`_call_inference` (lines 421-428). -/
inductive PredType where
  | labels
  | points
  | boundingBoxes
  | segmentationMasks
  deriving DecidableEq, Repr

/-- Modelled from the spec: `FieldNames_prediction` from
`constants.dbFieldNames` is imported by functional.py (line 32) but its
source is not part of the provided sources.  The spec's data model gives the
per-geometry field sets (bounding box and point fields map directly;
segmentation masks store the encoded mask plus width/height; predictions
carry confidence and priority).  The source turns the field set into a list
of unspecified order; a fixed order is used here, and every statement about
named fields goes through `rowField`, which pairs values with field names. -/
def fieldNamesPred : PredType → List String
  | PredType.labels => ["label", "confidence", "priority"]
  | PredType.points => ["label", "confidence", "priority", "x", "y"]
  | PredType.boundingBoxes =>
      ["label", "confidence", "priority", "x", "y", "width", "height"]
  | PredType.segmentationMasks => ["segmentationmask", "priority", "width", "height"]

/-- Lines 479-481: the projected column list is the prediction-type field
list with `image` and `cnnstate` appended, in that order. -/
def fieldNamesFull (pt : PredType) : List String :=
  fieldNamesPred pt ++ ["image", "cnnstate"]

/-- The value stored in the `cnnstate` column: the loaded state-dict id, or
NULL when no state row existed. -/
def stateVal : Option Nat → PVal
  | some i => PVal.vId i
  | none => PVal.vNull

/-- The data computed by the segmentation-mask block of lines 489-496:
`astype(np.uint8)` (byte cast), `ravel` (row-major flattening), base64
encoding (kept as the byte list), and `height, width = segMask.shape`. -/
structure SegInfo where
  encMask : List Nat
  width : Nat
  height : Nat
  deriving DecidableEq, Repr

/-- The 2D shape of `np.array` applied to a list of lists: defined for a
non-empty rectangular nesting, a ValueError otherwise (a ragged or empty
input does not unpack into `height, width`). -/
def npShape2 (a : List (List Nat)) : Except PyErr (Nat × Nat) :=
  match a with
  | [] => .error PyErr.valueError
  | r0 :: rest =>
    if rest.all (fun r => r.length = r0.length) then .ok (rest.length + 1, r0.length)
    else .error PyErr.valueError

/-- Lines 489-496 as executed for each prediction of one image: the label
array is always taken from `result[imgID]['predictions'][0]` — the first
prediction of the image, not the loop variable.  An empty prediction list
would raise IndexError and a missing or non-array `label` entry fails too. -/
def computeSegInfo (preds : List PyDict) : Except PyErr SegInfo :=
  match preds with
  | [] => .error PyErr.indexError
  | p0 :: _ =>
    match p0.lookup "label" with
    | some (PVal.vArr a) =>
      match npShape2 a with
      | .error e => .error e
      | .ok hw => .ok ⟨(a.flatten).map (fun v => v % 256), hw.2, hw.1⟩
    | some _ => .error PyErr.typeError
    | none => .error (PyErr.keyError "label")

/-- Lines 508-514, the `width` / `height` columns: for segmentation masks the
value always comes from `segMaskDimensions` (derived from the encoded
array's shape); for the other geometries it is the prediction's own entry,
or NULL when absent. -/
def widthHeightVal (pt : PredType) (segInfo : Option SegInfo) (pred : PyDict)
    (fn : String) : Except PyErr PVal :=
  if pt = PredType.segmentationMasks then
    match segInfo with
    | some si =>
        .ok (PVal.vNum (if fn = "width" then (si.width : Rat) else (si.height : Rat)))
    | none => .error PyErr.nameError
  else
    match pred.lookup fn with
    | some v => .ok v
    | none => .ok PVal.vNull

/-- Lines 500-528: the value stored for one column of one prediction row.
`image` and `cnnstate` are filled by the loop itself; `segmentationmask`
takes the encoded mask; `width` / `height` go through `widthHeightVal`;
`priority` uses the confidence as default only when the key is present with
value None — when the key is absent, the `else` branch evaluates
`prediction[fn]` and raises KeyError; any other column falls back to NULL
when missing. -/
def fieldValue (pt : PredType) (stateId : Option Nat) (imgID : Nat)
    (segInfo : Option SegInfo) (pred : PyDict) : String → Except PyErr PVal
  | "image" => .ok (PVal.vId imgID)
  | "cnnstate" => .ok (stateVal stateId)
  | "segmentationmask" =>
    match segInfo with
    | some si => .ok (PVal.vMaskEnc si.encMask)
    | none => .error PyErr.nameError
  | "width" => widthHeightVal pt segInfo pred "width"
  | "height" => widthHeightVal pt segInfo pred "height"
  | "priority" =>
    match pred.lookup "priority" with
    | some PVal.vNull =>
      match pred.lookup "confidence" with
      | some c => .ok c
      | none => .ok PVal.vNull
    | some v => .ok v
    | none => .error (PyErr.keyError "priority")
  | fn =>
    match pred.lookup fn with
    | some v => .ok v
    | none => .ok PVal.vNull

/-- Left-to-right effectful map over `Except`, mirroring a Python loop that
builds a list and aborts at the first raised error. -/
def exMapM (f : α → Except PyErr β) : List α → Except PyErr (List β)
  | [] => .ok []
  | a :: as =>
    match f a with
    | .error e => .error e
    | .ok b =>
      match exMapM f as with
      | .error e => .error e
      | .ok bs => .ok (b :: bs)

/-- Projection of one prediction into a storage row (the body of the loop at
lines 486-530): for segmentation masks the mask block runs first (always on
the image's first prediction), then every column of `fieldNamesFull` is
filled in order. -/
def projectPrediction (pt : PredType) (stateId : Option Nat) (imgID : Nat)
    (allPreds : List PyDict) (pred : PyDict) : Except PyErr (List PVal) :=
  if pt = PredType.segmentationMasks then
    match computeSegInfo allPreds with
    | .error e => .error e
    | .ok si => exMapM (fieldValue pt stateId imgID (some si) pred) (fieldNamesFull pt)
  else
    exMapM (fieldValue pt stateId imgID none pred) (fieldNamesFull pt)

/-- The result-parsing stage (lines 476-536): iterate the result map in
order, project every prediction of every image, and collect the
feature-vector upsert values (line 532: only when the `fVec` entry exists
and is non-empty). -/
def parseResult (pt : PredType) (stateId : Option Nat) :
    ResultMap → Except PyErr (List (List PVal) × List (Nat × List Nat))
  | [] => .ok ([], [])
  | (imgID, res) :: rest =>
    match exMapM (projectPrediction pt stateId imgID res.predictions) res.predictions with
    | .error e => .error e
    | .ok rows =>
      match parseResult pt stateId rest with
      | .error e => .error e
      | .ok (vp, vi) =>
        let fv :=
          match res.fVec with
          | some l => if l.isEmpty then [] else [(imgID, l)]
          | none => []
        .ok (rows ++ vp, fv ++ vi)

/-- Database actions issued by `_call_inference`: the per-chunk batch INSERT
of prediction rows (lines 549-555) and the feature-vector upsert
(lines 557-563). -/
inductive DbAct where
  | insertPreds (rows : List (List PVal))
  | upsertFVecs (rows : List (Nat × List Nat))
  deriving DecidableEq, Repr

/-- Python `idx * batchSizeLimit` (line 449): multiplying by None raises
TypeError; the result only feeds the progress offset. -/
def pyMulIntOpt (idx : Nat) : Option Int → Except PyErr Int
  | some n => .ok (idx * n)
  | none => .error PyErr.typeError

/-- One iteration of the chunk loop (lines 445-566): rebuild the progress
reporter with offset `idx * batchSizeLimit`, load the chunk's metadata and
run the adapter's inference (both folded into `inferFn`, a function of the
chunk's image ids), optionally pipe the result through the ranker, parse it,
and issue the non-empty inserts (predictions first, then feature vectors). -/
def chunkStep (pt : PredType) (stateId : Option Nat)
    (inferFn : List Nat → Except PyErr ResultMap)
    (rankFn : Option (ResultMap → Except PyErr ResultMap))
    (limit : Option Int) (idx : Nat) (c : List Nat) : Except PyErr (List DbAct) :=
  match pyMulIntOpt idx limit with
  | .error e => .error e
  | .ok _offset =>
    match inferFn c with
    | .error e => .error e
    | .ok result0 =>
      match (match rankFn with
             | some rk => rk result0
             | none => .ok result0) with
      | .error e => .error e
      | .ok result =>
        match parseResult pt stateId result with
        | .error e => .error e
        | .ok (vp, vi) =>
          .ok ((if vp.isEmpty then [] else [DbAct.insertPreds vp]) ++
               (if vi.isEmpty then [] else [DbAct.upsertFVecs vi]))

/-- The strictly sequential chunk loop: each chunk's actions are issued
before the next chunk starts, and the first failing chunk aborts the loop,
leaving the earlier chunks' actions in place. -/
def runChunks (pt : PredType) (stateId : Option Nat)
    (inferFn : List Nat → Except PyErr ResultMap)
    (rankFn : Option (ResultMap → Except PyErr ResultMap))
    (limit : Option Int) : Nat → List (List Nat) → List DbAct × Option PyErr
  | _, [] => ([], none)
  | idx, c :: rest =>
    match chunkStep pt stateId inferFn rankFn limit idx c with
    | .error e => ([], some e)
    | .ok acts =>
      ((acts ++ (runChunks pt stateId inferFn rankFn limit (idx + 1) rest).1),
       (runChunks pt stateId inferFn rankFn limit (idx + 1) rest).2)

/-- The chunking decision of lines 438-442: `array_split` when
`batchSizeLimit` is a positive int, otherwise the whole id list as one
chunk. -/
def chunkList (imageIDs : List Nat) (limit : Option Int) : List (List Nat) :=
  match limit with
  | some n => if 0 < n then array_split imageIDs n.toNat else [imageIDs]
  | none => [imageIDs]

/-- `_call_inference` (functional.py lines 413-571): resolve the prediction
type (an argument here), load the latest state row for the library — with no
restriction on its partial flag — then run the chunk loop. -/
def runInference (store : List CnnStateRow) (lib : String) (imageIDs : List Nat)
    (limit : Option Int) (pt : PredType)
    (inferFn : List Nat → Except PyErr ResultMap)
    (rankFn : Option (ResultMap → Except PyErr ResultMap)) :
    List DbAct × Option PyErr :=
  let stateId := (latestState store lib).map CnnStateRow.id
  runChunks pt stateId inferFn rankFn limit 0 (chunkList imageIDs limit)

/-- Value of the named column of a projected row (rows are positional lists
aligned with `fieldNamesFull`). -/
def rowField (pt : PredType) (row : List PVal) (fn : String) : Option PVal :=
  ((fieldNamesFull pt).zip row).lookup fn

/-- Store with a single partial row for library `L`. -/
def storeAvg1 : List CnnStateRow := [⟨1, 10, true, "L", "A", 11, none⟩]

/-- Store with three partial rows for library `L` whose stats carry the key
`k` with value 10, no stats at all, and `k` with value 20. -/
def storeAvg3 : List CnnStateRow :=
  [⟨2, 10, true, "L", "A", 12, some [("k", 10)]⟩,
   ⟨3, 11, true, "L", "A", 13, none⟩,
   ⟨4, 12, true, "L", "A", 14, some [("k", 20)]⟩]

/-- Store with a single non-partial state row (id 7) for library `L`. -/
def storeInf : List CnnStateRow := [⟨7, 10, false, "L", "A", 15, none⟩]

/-- Store for library `L` whose newest row (id 2, time 20) is partial while
an older non-partial row (id 1, time 10) exists. -/
def storeNewestPart : List CnnStateRow :=
  [⟨1, 10, false, "L", "A", 21, none⟩, ⟨2, 20, true, "L", "A", 22, none⟩]

/-- Adapter returning, for every image of the chunk, one label prediction
with label, confidence and priority all set to 1 and no feature vector. -/
def inferFnConst : List Nat → Except PyErr ResultMap :=
  fun c => .ok (c.map (fun i =>
    (i, ⟨[[("label", PVal.vNum 1), ("confidence", PVal.vNum 1),
           ("priority", PVal.vNum 1)]], none⟩)))

/-- Adapter that fails exactly on the chunk `[3, 4]` and otherwise behaves
like `inferFnConst`. -/
def inferFnFail34 : List Nat → Except PyErr ResultMap :=
  fun c => if c = [3, 4] then .error PyErr.valueError else inferFnConst c

/-- The storage row `inferFnConst`'s prediction projects to for image `i`
under state id `st` and the `labels` prediction type. -/
def rowOf (st i : Nat) : List PVal :=
  [PVal.vNum 1, PVal.vNum 1, PVal.vNum 1, PVal.vId i, PVal.vId st]

/-- State rows with one non-partial commit at time 10 for library `L`. -/
def statesT10 : List CnnStateRow := [⟨1, 10, false, "L", "A", 0, none⟩]

/-- One label class created exactly at time 10. -/
def classesAt10 : List LabelClassRow := [⟨1, 10⟩]

/-- One label class created at time 5, before every commit of `statesT10`. -/
def classesAt5 : List LabelClassRow := [⟨1, 5⟩]

/-- Segmentation prediction whose label array has shape 2 x 3. -/
def predSegA : PyDict :=
  [("label", PVal.vArr [[1, 2, 3], [4, 5, 6]]), ("priority", PVal.vNum 1)]

/-- Segmentation prediction whose own label array has shape 4 x 5 and which
additionally carries caller-supplied width 99 and height 98 entries. -/
def predSegB : PyDict :=
  [("label", PVal.vArr [[0, 0, 0, 0, 0], [1, 1, 1, 1, 1],
                        [2, 2, 2, 2, 2], [3, 3, 3, 3, 3]]),
   ("priority", PVal.vNum 2), ("width", PVal.vNum 99), ("height", PVal.vNum 98)]

/-- Inference result for image 5 holding the two segmentation predictions. -/
def resultSeg : ResultMap := [(5, ⟨[predSegA, predSegB], none⟩)]

/-- A bounding-box prediction carrying a confidence but no `priority` key at
all. -/
def predNoPriority : PyDict :=
  [("label", PVal.vNum 1), ("confidence", PVal.vNum (1 / 2)),
   ("x", PVal.vNum 0), ("y", PVal.vNum 0),
   ("width", PVal.vNum 1), ("height", PVal.vNum 1)]

/-- Inference result for image 5 holding only `predNoPriority`. -/
def resultNoPriority : ResultMap := [(5, ⟨[predNoPriority], none⟩)]

/-- Storage row projected for `predSegA` (state id 7): `predSegA`'s own mask
and its 2 x 3 shape. -/
def segRowA : List PVal :=
  [PVal.vMaskEnc [1, 2, 3, 4, 5, 6], PVal.vNum 1, PVal.vNum 3, PVal.vNum 2,
   PVal.vId 5, PVal.vId 7]

/-- Storage row projected for `predSegB` (state id 7): the code stores the
first prediction's mask and shape for it as well. -/
def segRowB : List PVal :=
  [PVal.vMaskEnc [1, 2, 3, 4, 5, 6], PVal.vNum 2, PVal.vNum 3, PVal.vNum 2,
   PVal.vId 5, PVal.vId 7]

theorem splitGo_flatten (size : Nat) :
    ∀ (fuel : Nat) (arr : List α), arr.length ≤ fuel →
      (splitGo size fuel arr).flatten = arr := by
  intro fuel
  induction fuel with
  | zero =>
    intro arr h
    have harr : arr = [] := List.length_eq_zero.mp (Nat.le_zero.mp h)
    subst harr
    simp [splitGo]
  | succ n ih =>
    intro arr h
    by_cases hc : arr.length ≤ size ∨ size = 0
    · simp [splitGo, hc]
    · push_neg at hc
      obtain ⟨h1, h2⟩ := hc
      have hdrop : (arr.drop size).length ≤ n := by
        rw [List.length_drop]
        omega
      simp only [splitGo, if_neg (by omega : ¬(arr.length ≤ size ∨ size = 0)),
        List.flatten_cons]
      rw [ih (arr.drop size) hdrop]
      exact List.take_append_drop size arr

theorem splitGo_getD (size : Nat) (hpos : 0 < size) :
    ∀ (fuel : Nat) (arr : List α) (i : Nat), arr.length ≤ fuel →
      (splitGo size fuel arr).getD i [] = (arr.drop (i * size)).take size := by
  intro fuel
  induction fuel with
  | zero =>
    intro arr i h
    have harr : arr = [] := List.length_eq_zero.mp (Nat.le_zero.mp h)
    subst harr
    cases i <;> simp [splitGo]
  | succ n ih =>
    intro arr i h
    by_cases hc : arr.length ≤ size ∨ size = 0
    · have hle : arr.length ≤ size := by omega
      simp only [splitGo, if_pos hc]
      cases i with
      | zero =>
        simp [List.take_of_length_le hle]
      | succ i =>
        have hnil : arr.drop ((i + 1) * size) = [] := by
          apply List.drop_eq_nil_of_le
          calc arr.length ≤ size := hle
            _ ≤ (i + 1) * size := Nat.le_mul_of_pos_left size (Nat.succ_pos i)
        simp [hnil]
    · push_neg at hc
      obtain ⟨h1, h2⟩ := hc
      have hdrop : (arr.drop size).length ≤ n := by
        rw [List.length_drop]
        omega
      simp only [splitGo, if_neg (by omega : ¬(arr.length ≤ size ∨ size = 0))]
      cases i with
      | zero => simp
      | succ i =>
        rw [List.getD_cons_succ, ih (arr.drop size) i hdrop, List.drop_drop]
        congr 2
        ring

theorem splitGo_le (size : Nat) (hpos : 0 < size) :
    ∀ (fuel : Nat) (arr : List α), arr.length ≤ fuel →
      ∀ c ∈ splitGo size fuel arr, c.length ≤ size := by
  intro fuel
  induction fuel with
  | zero =>
    intro arr h c hc
    have harr : arr = [] := List.length_eq_zero.mp (Nat.le_zero.mp h)
    subst harr
    simp [splitGo] at hc
    simp [hc]
  | succ n ih =>
    intro arr h c hc
    by_cases hcond : arr.length ≤ size ∨ size = 0
    · have hle : arr.length ≤ size := by omega
      simp only [splitGo, if_pos hcond, List.mem_singleton] at hc
      subst hc
      exact hle
    · push_neg at hcond
      obtain ⟨h1, h2⟩ := hcond
      have hdrop : (arr.drop size).length ≤ n := by
        rw [List.length_drop]
        omega
      simp only [splitGo, if_neg (by omega : ¬(arr.length ≤ size ∨ size = 0)),
        List.mem_cons] at hc
      rcases hc with hc | hc
      · subst hc
        exact List.length_take_le size arr
      · exact ih (arr.drop size) hdrop c hc

theorem splitGo_nonlast (size : Nat) :
    ∀ (fuel : Nat) (arr : List α) (i : Nat), arr.length ≤ fuel →
      i + 1 < (splitGo size fuel arr).length →
      ((splitGo size fuel arr).getD i []).length = size := by
  intro fuel
  induction fuel with
  | zero =>
    intro arr i h hi
    simp [splitGo] at hi
  | succ n ih =>
    intro arr i h hi
    by_cases hcond : arr.length ≤ size ∨ size = 0
    · simp [splitGo, if_pos hcond] at hi
    · push_neg at hcond
      obtain ⟨h1, h2⟩ := hcond
      have hdrop : (arr.drop size).length ≤ n := by
        rw [List.length_drop]
        omega
      simp only [splitGo, if_neg (by omega : ¬(arr.length ≤ size ∨ size = 0)),
        List.length_cons] at hi ⊢
      cases i with
      | zero =>
        simp only [List.getD_cons_zero, List.length_take]
        omega
      | succ i =>
        rw [List.getD_cons_succ]
        exact ih (arr.drop size) i hdrop (by omega)

theorem pickLatest_cons (a : CnnStateRow) (rest : List CnnStateRow) :
    pickLatest (a :: rest) =
      match pickLatest rest with
      | none => some a
      | some b => if a.timeCreated < b.timeCreated then some b else some a := rfl

theorem pickLatest_mem : ∀ (l : List CnnStateRow) (r : CnnStateRow),
    pickLatest l = some r → r ∈ l := by
  intro l
  induction l with
  | nil => intro r h; simp [pickLatest] at h
  | cons a rest ih =>
    intro r h
    rw [pickLatest_cons] at h
    cases hrest : pickLatest rest with
    | none =>
      rw [hrest] at h
      have : a = r := Option.some.inj h
      subst this
      exact List.mem_cons_self a rest
    | some b =>
      rw [hrest] at h
      dsimp only at h
      by_cases hab : a.timeCreated < b.timeCreated
      · rw [if_pos hab] at h
        have : b = r := Option.some.inj h
        subst this
        exact List.mem_cons_of_mem a (ih b hrest)
      · rw [if_neg hab] at h
        have : a = r := Option.some.inj h
        subst this
        exact List.mem_cons_self a rest

theorem pickLatest_le : ∀ (l : List CnnStateRow) (r : CnnStateRow),
    pickLatest l = some r → ∀ s ∈ l, s.timeCreated ≤ r.timeCreated := by
  intro l
  induction l with
  | nil => intro r h s hs; simp at hs
  | cons a rest ih =>
    intro r h s hs
    rw [pickLatest_cons] at h
    cases hrest : pickLatest rest with
    | none =>
      rw [hrest] at h
      have har : a = r := Option.some.inj h
      subst har
      rcases List.mem_cons.mp hs with hsa | hsr
      · subst hsa; exact le_refl _
      · cases rest with
        | nil => simp at hsr
        | cons x xs =>
          rw [pickLatest_cons] at hrest
          cases hx : pickLatest xs <;> rw [hx] at hrest <;> dsimp only at hrest
          · simp at hrest
          · split at hrest <;> simp at hrest
    | some b =>
      rw [hrest] at h
      dsimp only at h
      by_cases hab : a.timeCreated < b.timeCreated
      · rw [if_pos hab] at h
        have hbr : b = r := Option.some.inj h
        subst hbr
        rcases List.mem_cons.mp hs with hsa | hsr
        · subst hsa; exact le_of_lt hab
        · exact ih b hrest s hsr
      · rw [if_neg hab] at h
        have har : a = r := Option.some.inj h
        subst har
        rcases List.mem_cons.mp hs with hsa | hsr
        · subst hsa; exact le_refl _
        · exact le_trans (ih b hrest s hsr) (not_lt.mp hab)

theorem latestState_spec (store : List CnnStateRow) (lib : String) (r : CnnStateRow)
    (h : latestState store lib = some r) :
    r ∈ store ∧ r.modelLib = lib ∧
      ∀ s ∈ store, s.modelLib = lib → s.timeCreated ≤ r.timeCreated := by
  have hmem := pickLatest_mem _ _ h
  rw [List.mem_filter] at hmem
  refine ⟨hmem.1, by simpa using hmem.2, ?_⟩
  intro s hs hsl
  exact pickLatest_le _ _ h s (List.mem_filter.mpr ⟨hs, by simpa using hsl⟩)

theorem exMapM_cons_inv (f : α → Except PyErr β) (a : α) (as : List α) (out : List β)
    (h : exMapM f (a :: as) = Except.ok out) :
    ∃ v out2, f a = Except.ok v ∧ exMapM f as = Except.ok out2 ∧ out = v :: out2 := by
  cases hfa : f a with
  | error e => simp [exMapM, hfa] at h
  | ok v =>
    cases hrest : exMapM f as with
    | error e => simp [exMapM, hfa, hrest] at h
    | ok out2 =>
      refine ⟨v, out2, rfl, rfl, ?_⟩
      simp only [exMapM, hfa, hrest] at h
      exact (Except.ok.inj h).symm

theorem exMapM_ok_mem (f : α → Except PyErr β) :
    ∀ (l : List α) (out : List β), exMapM f l = Except.ok out →
      ∀ b ∈ out, ∃ a ∈ l, f a = Except.ok b := by
  intro l
  induction l with
  | nil =>
    intro out h b hb
    simp only [exMapM] at h
    have : out = [] := (Except.ok.inj h).symm
    subst this
    simp at hb
  | cons a as ih =>
    intro out h b hb
    obtain ⟨v, out2, hfa, hrest, hout⟩ := exMapM_cons_inv f a as out h
    subst hout
    rcases List.mem_cons.mp hb with hbv | hbo
    · subst hbv
      exact ⟨a, List.mem_cons_self a as, hfa⟩
    · obtain ⟨a2, ha2, hfa2⟩ := ih out2 hrest b hbo
      exact ⟨a2, List.mem_cons_of_mem a ha2, hfa2⟩

theorem exMapM_concat_inv (f : α → Except PyErr β) :
    ∀ (l : List α) (a : α) (out : List β), exMapM f (l ++ [a]) = Except.ok out →
      ∃ out1 v, out = out1 ++ [v] ∧ f a = Except.ok v := by
  intro l
  induction l with
  | nil =>
    intro a out h
    simp only [List.nil_append] at h
    obtain ⟨v, out2, hfa, hrest, hout⟩ := exMapM_cons_inv f a [] out h
    simp only [exMapM] at hrest
    have : out2 = [] := (Except.ok.inj hrest).symm
    subst this
    exact ⟨[], v, by simpa using hout, hfa⟩
  | cons x l ih =>
    intro a out h
    rw [List.cons_append] at h
    obtain ⟨v, out2, hfx, hrest, hout⟩ := exMapM_cons_inv f x (l ++ [a]) out h
    obtain ⟨out1, w, hout2, hfa⟩ := ih a out2 hrest
    subst hout hout2
    exact ⟨v :: out1, w, by simp, hfa⟩

theorem projectPrediction_getLast (pt : PredType) (st : Option Nat) (imgID : Nat)
    (allPreds : List PyDict) (pred : PyDict) (row : List PVal)
    (h : projectPrediction pt st imgID allPreds pred = Except.ok row) :
    row.getLast? = some (stateVal st) := by
  have key : ∀ si : Option SegInfo,
      exMapM (fieldValue pt st imgID si pred) (fieldNamesFull pt) = Except.ok row →
      row.getLast? = some (stateVal st) := by
    intro si hmap
    have hsplit : fieldNamesFull pt = (fieldNamesPred pt ++ ["image"]) ++ ["cnnstate"] := by
      simp [fieldNamesFull]
    rw [hsplit] at hmap
    obtain ⟨out1, v, hout, hv⟩ := exMapM_concat_inv _ _ _ _ hmap
    have hcnn : fieldValue pt st imgID si pred "cnnstate" = Except.ok (stateVal st) := rfl
    rw [hcnn] at hv
    have hvv : stateVal st = v := Except.ok.inj hv
    subst hout
    rw [← hvv]
    exact List.getLast?_concat _
  by_cases hpt : pt = PredType.segmentationMasks
  · rw [projectPrediction, if_pos hpt] at h
    cases hsi : computeSegInfo allPreds with
    | error e => rw [hsi] at h; simp at h
    | ok si =>
      rw [hsi] at h
      exact key (some si) h
  · rw [projectPrediction, if_neg hpt] at h
    exact key none h

theorem parseResult_rows_getLast (pt : PredType) (st : Option Nat) :
    ∀ (result : ResultMap) (vp : List (List PVal)) (vi : List (Nat × List Nat)),
      parseResult pt st result = Except.ok (vp, vi) →
      ∀ row ∈ vp, row.getLast? = some (stateVal st) := by
  intro result
  induction result with
  | nil =>
    intro vp vi h row hrow
    simp only [parseResult] at h
    have : ([], ([] : List (Nat × List Nat))) = (vp, vi) := Except.ok.inj h
    have hvp : vp = [] := by
      have := congrArg Prod.fst this
      simpa using this.symm
    subst hvp
    simp at hrow
  | cons hd rest ih =>
    intro vp vi h row hrow
    obtain ⟨imgID, res⟩ := hd
    cases hmap : exMapM (projectPrediction pt st imgID res.predictions) res.predictions with
    | error e => simp [parseResult, hmap] at h
    | ok rows =>
      cases hrest : parseResult pt st rest with
      | error e => simp [parseResult, hmap, hrest] at h
      | ok pr =>
        obtain ⟨vp2, vi2⟩ := pr
        simp only [parseResult, hmap, hrest] at h
        have hvp : rows ++ vp2 = vp := by
          have := congrArg Prod.fst (Except.ok.inj h)
          simpa using this
        subst hvp
        rcases List.mem_append.mp hrow with hr | hr
        · obtain ⟨p, hp, hproj⟩ := exMapM_ok_mem _ _ _ hmap row hr
          exact projectPrediction_getLast pt st imgID res.predictions p row hproj
        · exact ih vp2 vi2 hrest row hr

theorem chunkStep_insert_rows (pt : PredType) (st : Option Nat)
    (f : List Nat → Except PyErr ResultMap)
    (rk : Option (ResultMap → Except PyErr ResultMap))
    (lim : Option Int) (idx : Nat) (c : List Nat) (acts : List DbAct)
    (rows : List (List PVal))
    (h : chunkStep pt st f rk lim idx c = Except.ok acts)
    (hmem : DbAct.insertPreds rows ∈ acts) :
    ∀ row ∈ rows, row.getLast? = some (stateVal st) := by
  cases hmul : pyMulIntOpt idx lim with
  | error e => simp [chunkStep, hmul] at h
  | ok off =>
    cases hinf : f c with
    | error e => simp [chunkStep, hmul, hinf] at h
    | ok r0 =>
      cases hrank : (match rk with
                     | some rkf => rkf r0
                     | none => Except.ok r0) with
      | error e => simp [chunkStep, hmul, hinf, hrank] at h
      | ok result =>
        cases hp : parseResult pt st result with
        | error e => simp [chunkStep, hmul, hinf, hrank, hp] at h
        | ok pr =>
          obtain ⟨vp, vi⟩ := pr
          simp only [chunkStep, hmul, hinf, hrank, hp] at h
          have hacts := Except.ok.inj h
          rw [← hacts] at hmem
          rcases List.mem_append.mp hmem with h1 | h1
          · by_cases hvp : vp.isEmpty
            · rw [if_pos hvp] at h1
              simp at h1
            · rw [if_neg hvp] at h1
              have : DbAct.insertPreds rows = DbAct.insertPreds vp := by simpa using h1
              have hrv : rows = vp := by injection this
              subst hrv
              exact parseResult_rows_getLast pt st result rows vi hp
          · by_cases hvi : vi.isEmpty
            · rw [if_pos hvi] at h1
              simp at h1
            · rw [if_neg hvi] at h1
              simp at h1

theorem runChunks_insert_mem (pt : PredType) (st : Option Nat)
    (f : List Nat → Except PyErr ResultMap)
    (rk : Option (ResultMap → Except PyErr ResultMap)) (lim : Option Int) :
    ∀ (chunks : List (List Nat)) (idx : Nat) (rows : List (List PVal)),
      DbAct.insertPreds rows ∈ (runChunks pt st f rk lim idx chunks).1 →
      ∀ row ∈ rows, row.getLast? = some (stateVal st) := by
  intro chunks
  induction chunks with
  | nil =>
    intro idx rows hmem
    simp [runChunks] at hmem
  | cons c rest ih =>
    intro idx rows hmem
    cases hstep : chunkStep pt st f rk lim idx c with
    | error e => simp [runChunks, hstep] at hmem
    | ok acts =>
      simp only [runChunks, hstep] at hmem
      rcases List.mem_append.mp hmem with h1 | h1
      · exact chunkStep_insert_rows pt st f rk lim idx c acts rows hstep h1
      · exact ih (idx + 1) rows h1

theorem parseResult_mem_inv (pt : PredType) (st : Option Nat) :
    ∀ (result : ResultMap) (vp : List (List PVal)) (vi : List (Nat × List Nat))
      (row : List PVal),
      parseResult pt st result = Except.ok (vp, vi) → row ∈ vp →
      ∃ imgID res p, (imgID, res) ∈ result ∧ p ∈ res.predictions ∧
        projectPrediction pt st imgID res.predictions p = Except.ok row := by
  intro result
  induction result with
  | nil =>
    intro vp vi row h hrow
    simp only [parseResult] at h
    have : ([], ([] : List (Nat × List Nat))) = (vp, vi) := Except.ok.inj h
    have hvp : vp = [] := by
      have := congrArg Prod.fst this
      simpa using this.symm
    subst hvp
    simp at hrow
  | cons hd rest ih =>
    intro vp vi row h hrow
    obtain ⟨imgID, res⟩ := hd
    cases hmap : exMapM (projectPrediction pt st imgID res.predictions) res.predictions with
    | error e => simp [parseResult, hmap] at h
    | ok rows =>
      cases hrest : parseResult pt st rest with
      | error e => simp [parseResult, hmap, hrest] at h
      | ok pr =>
        obtain ⟨vp2, vi2⟩ := pr
        simp only [parseResult, hmap, hrest] at h
        have hvp : rows ++ vp2 = vp := by
          have := congrArg Prod.fst (Except.ok.inj h)
          simpa using this
        subst hvp
        rcases List.mem_append.mp hrow with hr | hr
        · obtain ⟨p, hp, hproj⟩ := exMapM_ok_mem _ _ _ hmap row hr
          exact ⟨imgID, res, p, List.mem_cons_self _ _, hp, hproj⟩
        · obtain ⟨i2, r2, p2, hmem2, hp2, hproj2⟩ := ih vp2 vi2 row hrest hr
          exact ⟨i2, r2, p2, List.mem_cons_of_mem _ hmem2, hp2, hproj2⟩

theorem chunkStep_idx_irrel (pt : PredType) (st : Option Nat)
    (f : List Nat → Except PyErr ResultMap)
    (rk : Option (ResultMap → Except PyErr ResultMap)) (n : Int) (idx : Nat)
    (c : List Nat) :
    chunkStep pt st f rk (some n) idx c = chunkStep pt st f rk (some n) 0 c := rfl

theorem runChunks_append_error (pt : PredType) (st : Option Nat)
    (f : List Nat → Except PyErr ResultMap)
    (rk : Option (ResultMap → Except PyErr ResultMap)) (n : Int)
    (post : List (List Nat)) (cfail : List Nat) (e : PyErr)
    (pre : List (List Nat)) (actsList : List (List DbAct))
    (hok : List.Forall₂
      (fun c a => chunkStep pt st f rk (some n) 0 c = Except.ok a) pre actsList)
    (hfail : chunkStep pt st f rk (some n) 0 cfail = Except.error e) :
    ∀ idx, runChunks pt st f rk (some n) idx (pre ++ cfail :: post) =
      (actsList.flatten, some e) := by
  induction hok with
  | nil =>
    intro idx
    have h0 : chunkStep pt st f rk (some n) idx cfail = Except.error e := by
      rw [chunkStep_idx_irrel]
      exact hfail
    simp [runChunks, h0]
  | cons h1 htail ih =>
    intro idx
    rename_i c a pre2 acts2
    have h0 : chunkStep pt st f rk (some n) idx c = Except.ok a := by
      rw [chunkStep_idx_irrel]
      exact h1
    simp only [List.cons_append, runChunks, h0, List.append_eq, ih (idx + 1),
      List.flatten_cons]

/-- C1: with at least one partial row for the library,
`_call_average_model_states` never reaches the fused commit or the purge:
the stats-averaging step reads `qr['stats']` from result rows whose keys are
the SELECTed column names (`statedict`, `statistics`, `model_library`,
`alcriterion_library`), so it raises `KeyError('stats')` first — the run
errors with an empty action trace, so neither the commit nor the purge is
ever issued, against the claimed commit-then-purge barrier. -/
theorem runAverage_errors_before_commit_and_purge (store : List CnnStateRow)
    (lib : String)
    (h : store.filter (fun r => r.isPartial && r.modelLib == lib) ≠ []) :
    runAverage store lib = ([], some (PyErr.keyError "stats")) := by
  obtain ⟨r, rs, heq⟩ := List.exists_cons_of_ne_nil h
  unfold runAverage
  rw [heq]
  rfl

/-- C1 witness: a store with exactly one partial row for library `L`. -/
theorem runAverage_errors_before_commit_and_purge_inst :
    runAverage storeAvg1 "L" = ([], some (PyErr.keyError "stats")) :=
  runAverage_errors_before_commit_and_purge storeAvg1 "L" (by decide)

/-- C4: on three partial rows whose stats are `{k: 10}`, NULL and `{k: 20}`,
the stats pipeline raises `KeyError('stats')` (the SELECT named the column
`statistics`, and the table column written by every INSERT in the same file
is `stats`), so the whole run errors instead of producing the mean; the
downstream per-key reduction `statsAvg` — had the dictionaries been
reachable — does average only over rows carrying the key, giving 15. -/
theorem avgStats_key_error_at_stats_step :
    avgStatsDicts (storeAvg3.map avgQueryRow) = Except.error (PyErr.keyError "stats")
    ∧ runAverage storeAvg3 "L" = ([], some (PyErr.keyError "stats"))
    ∧ statsAvg [[("k", 10)], [("k", 20)]] = [("k", 15)] := by
  refine ⟨rfl, rfl, ?_⟩
  norm_num [statsAvg, statsKeys, nanmean, List.filterMap, List.lookup, List.dedup,
    List.sum]

/-- C5 counterexample: one non-partial commit at time 10 and one label class
created exactly at time 10.  No label class was created strictly after the
latest non-partial commit, yet `_call_update_model` does not take the fast
path (its check uses `timeCreated >= MAX(timeCreated)`) and invokes the
adapter, refuting the claim as stated. -/
theorem updateModel_fast_path_missed_at_equal_timestamp :
    specLatestNonPartialTime statesT10 "L" = some 10
    ∧ (∀ c ∈ classesAt10, ¬ (10 < c.timeCreated))
    ∧ (runUpdateModel statesT10 classesAt10 "L" true).adapterCalled = true := by
  refine ⟨rfl, ?_, rfl⟩
  decide

/-- C5 (amended): `updateForNewClasses` takes the fast path — SUCCESS, no
adapter call, no state load, no metadata load, no commit — whenever at least
one state row exists for the library and every LabelClass was created
strictly before the maximum creation time over all of the library's state
rows (partial rows included); a class created exactly at that time defeats
the fast path because of the `>=` comparison. -/
theorem updateModel_fast_path_when_no_newer_class (states : List CnnStateRow)
    (classes : List LabelClassRow) (lib : String)
    (h1 : ∃ s ∈ states, s.modelLib = lib)
    (h2 : ∀ c ∈ classes, ∀ m, maxTimeFor states lib = some m → c.timeCreated < m) :
    runUpdateModel states classes lib true = ⟨false, false, false, false, true⟩ := by
  obtain ⟨s, hs, hsl⟩ := h1
  have hmem : s ∈ states.filter (fun r => r.modelLib == lib) :=
    List.mem_filter.mpr ⟨hs, by simpa using hsl⟩
  have hcount1 : 0 < (states.filter (fun r => r.modelLib == lib)).length :=
    List.length_pos.mpr (List.ne_nil_of_mem hmem)
  have hcount2 : (match maxTimeFor states lib with
      | none => 0
      | some m => (classes.filter (fun c => decide (m ≤ c.timeCreated))).length) = 0 := by
    cases hmax : maxTimeFor states lib with
    | none => rfl
    | some m =>
      dsimp only
      rw [List.length_eq_zero]
      apply List.filter_eq_nil_iff.mpr
      intro c hc
      simp only [decide_eq_true_eq]
      exact not_le.mpr (h2 c hc m hmax)
  simp only [runUpdateModel, Bool.not_true, Bool.false_eq_true, if_false]
  rw [if_pos ⟨hcount1, hcount2⟩]

/-- C5 witness: one commit at time 10, one class created earlier at time 5:
the fast path is taken. -/
theorem updateModel_fast_path_when_no_newer_class_inst :
    runUpdateModel statesT10 classesAt5 "L" true = ⟨false, false, false, false, true⟩ :=
  updateModel_fast_path_when_no_newer_class statesT10 classesAt5 "L"
    ⟨⟨1, 10, false, "L", "A", 0, none⟩, by simp [statesT10], rfl⟩
    (by
      intro c hc m hm
      have h10 : maxTimeFor statesT10 "L" = some 10 := rfl
      rw [h10] at hm
      have hm10 : (10 : Int) = m := Option.some.inj hm
      have hc5 : c = ⟨1, 5⟩ := by simpa [classesAt5] using hc
      rw [hc5, ← hm10]
      decide)

/-- C6 counterexample: with `batchSizeLimit = None` and a non-empty image
list, `_call_inference` does not process the single chunk to completion: the
first loop iteration computes `idx * batchSizeLimit`, which raises TypeError
before any metadata load, inference or commit — while the same single chunk
processed with a sized limit commits its predictions. -/
theorem inference_none_batch_limit_type_error :
    runInference storeInf "L" [1] none PredType.labels inferFnConst none =
      ([], some PyErr.typeError)
    ∧ runChunks PredType.labels (some 7) inferFnConst none (some 1) 0 [[1]] =
      ([DbAct.insertPreds [rowOf 7 1]], none) :=
  ⟨rfl, rfl⟩

/-- C6 (amended): when `batchSizeLimit` is a non-positive integer the whole
image-id set is one single chunk and is processed to completion exactly as a
sized chunk would be; when `batchSizeLimit` is None, it is also one single
chunk but the run raises TypeError at the first chunk's progress-offset
multiplication, before any processing. -/
theorem inference_nonpositive_batch_limit_single_chunk (store : List CnnStateRow)
    (lib : String) (ids : List Nat) (pt : PredType)
    (f : List Nat → Except PyErr ResultMap)
    (rk : Option (ResultMap → Except PyErr ResultMap)) :
    (∀ z : Int, z ≤ 0 → chunkList ids (some z) = [ids])
    ∧ (∀ z : Int, z ≤ 0 → ∀ n : Int, 0 < n →
        runInference store lib ids (some z) pt f rk =
          runChunks pt ((latestState store lib).map CnnStateRow.id) f rk (some n) 0 [ids])
    ∧ runInference store lib ids none pt f rk = ([], some PyErr.typeError) := by
  refine ⟨?_, ?_, rfl⟩
  · intro z hz
    simp [chunkList, not_lt.mpr hz]
  · intro z hz n hn
    have hchunk : chunkList ids (some z) = [ids] := by
      simp [chunkList, not_lt.mpr hz]
    simp only [runInference, hchunk]
    rfl

/-- C6 witness: limit `-2` gives the single chunk, and the None run raises
TypeError. -/
theorem inference_nonpositive_batch_limit_single_chunk_inst :
    chunkList [1, 2] (some (-2)) = [[1, 2]]
    ∧ runInference storeInf "L" [1, 2] none PredType.labels inferFnConst none =
      ([], some PyErr.typeError) :=
  ⟨(inference_nonpositive_batch_limit_single_chunk storeInf "L" [1, 2] PredType.labels
      inferFnConst none).1 (-2) (by norm_num),
   (inference_nonpositive_batch_limit_single_chunk storeInf "L" [1, 2] PredType.labels
      inferFnConst none).2.2⟩

/-- C7 counterexample: the reporter is stateless, so two successive numeric
invocations reporting `done = 5` and then `done = 3` (same total, offset 0,
no cumulative total) emit events whose `done` values are 5 and then 3 — a
decreasing stream, refuting the claim that `done` is monotonically
non-decreasing from event to event. -/
theorem progress_done_can_decrease :
    emittedStream [(5, 10), (3, 10)] 0 none = [(5, 10), (3, 10)]
    ∧ ¬ ((5 : Rat) ≤ 3) := by
  constructor
  · norm_num [emittedStream, onMessageMeta, min_def, max_def]
  · norm_num

/-- C7 (amended): every emitted event with numeric fields satisfies
`done ≤ total` — `done` is clamped to the effective total, the maximum of
the local total plus offset and the declared cumulative total — and the
emitted `done` is monotone in the reported `done`, so the stream is
non-decreasing exactly when the underlying reported values are; the
reporter itself adds no cross-event clamping. -/
theorem progress_done_le_total_and_monotone (total offset : Rat)
    (cumulatedTotal : Option Rat) :
    (∀ done, (onMessageMeta done total offset cumulatedTotal).1 ≤
      (onMessageMeta done total offset cumulatedTotal).2)
    ∧ ∀ d1 d2, d1 ≤ d2 →
      (onMessageMeta d1 total offset cumulatedTotal).1 ≤
        (onMessageMeta d2 total offset cumulatedTotal).1 := by
  constructor
  · intro done
    simp only [onMessageMeta]
    exact le_max_left _ _
  · intro d1 d2 h
    simp only [onMessageMeta]
    exact min_le_min (by linarith) (le_refl _)

/-- C7 witness: clamping and monotonicity at `done = 3` and `done = 5` with
total 10. -/
theorem progress_done_le_total_and_monotone_inst :
    (onMessageMeta 3 10 0 none).1 ≤ (onMessageMeta 3 10 0 none).2
    ∧ (onMessageMeta 3 10 0 none).1 ≤ (onMessageMeta 5 10 0 none).1 :=
  ⟨(progress_done_le_total_and_monotone 10 0 none).1 3,
   (progress_done_le_total_and_monotone 10 0 none).2 3 5 (by norm_num)⟩

/-- C9 counterexample: a prediction with a confidence but no `priority` key
at all makes the result-parsing stage raise `KeyError('priority')` (the
`else` branch evaluates `prediction[fn]`), so no row of the chunk is
committed — against the claim that such a prediction's priority defaults to
its confidence and its row is still committed. -/
theorem priority_missing_key_error :
    parseResult PredType.boundingBoxes (some 7) resultNoPriority =
      Except.error (PyErr.keyError "priority") := rfl

/-- C9 (amended): for a prediction carrying the `priority` key with value
None, the stored priority defaults to the prediction's `confidence` entry
when one is present and stays None otherwise (the row is still projected);
when the `priority` key is absent entirely, the projection raises
`KeyError('priority')`. -/
theorem priority_null_defaults_to_confidence (pt : PredType) (st : Option Nat)
    (imgID : Nat) (si : Option SegInfo) (p : PyDict) :
    (∀ c, p.lookup "priority" = some PVal.vNull → p.lookup "confidence" = some c →
      fieldValue pt st imgID si p "priority" = Except.ok c)
    ∧ (p.lookup "priority" = some PVal.vNull → p.lookup "confidence" = none →
      fieldValue pt st imgID si p "priority" = Except.ok PVal.vNull)
    ∧ (p.lookup "priority" = none →
      fieldValue pt st imgID si p "priority" = Except.error (PyErr.keyError "priority")) := by
  have hpr : fieldValue pt st imgID si p "priority" =
      (match p.lookup "priority" with
       | some PVal.vNull =>
         match p.lookup "confidence" with
         | some c => Except.ok c
         | none => Except.ok PVal.vNull
       | some v => Except.ok v
       | none => Except.error (PyErr.keyError "priority")) := rfl
  refine ⟨?_, ?_, ?_⟩
  · intro c h1 h2
    rw [hpr, h1, h2]
  · intro h1 h2
    rw [hpr, h1, h2]
  · intro h1
    rw [hpr, h1]

/-- C9 witness: priority None with confidence 1 stores 1; priority None
without confidence stays None; a missing priority key errors. -/
theorem priority_null_defaults_to_confidence_inst :
    fieldValue PredType.boundingBoxes (some 7) 5 none
      [("priority", PVal.vNull), ("confidence", PVal.vNum 1)] "priority" =
      Except.ok (PVal.vNum 1)
    ∧ fieldValue PredType.boundingBoxes (some 7) 5 none
      [("priority", PVal.vNull)] "priority" = Except.ok PVal.vNull
    ∧ fieldValue PredType.boundingBoxes (some 7) 5 none
      [("confidence", PVal.vNum 1)] "priority" =
      Except.error (PyErr.keyError "priority") :=
  ⟨(priority_null_defaults_to_confidence PredType.boundingBoxes (some 7) 5 none
      [("priority", PVal.vNull), ("confidence", PVal.vNum 1)]).1 (PVal.vNum 1) rfl rfl,
   (priority_null_defaults_to_confidence PredType.boundingBoxes (some 7) 5 none
      [("priority", PVal.vNull)]).2.1 rfl rfl,
   (priority_null_defaults_to_confidence PredType.boundingBoxes (some 7) 5 none
      [("confidence", PVal.vNum 1)]).2.2 rfl⟩

/-- C2: for any non-empty id list and positive limit, the chunking is a true
partition — the concatenation of the chunks is the input (order preserved),
chunk `i` is exactly the contiguous slice starting at `i * size` (so chunks
cannot overlap), every chunk is at most `size` long and every chunk except
possibly the last is exactly `size` long; in particular ids 1..10 with limit
4 give chunks of sizes 4, 4, 2, and the inference run issues exactly three
prediction-insert commits, one per chunk, in chunk order. -/
theorem array_split_partition_and_batched_commits (ids : List Nat) (size : Nat)
    (hne : ids ≠ []) (hpos : 0 < size) :
    (array_split ids size).flatten = ids
    ∧ (∀ c ∈ array_split ids size, c.length ≤ size)
    ∧ (∀ i, (array_split ids size).getD i [] = (ids.drop (i * size)).take size)
    ∧ (∀ i, i + 1 < (array_split ids size).length →
        ((array_split ids size).getD i []).length = size)
    ∧ array_split [1, 2, 3, 4, 5, 6, 7, 8, 9, 10] 4 = [[1, 2, 3, 4], [5, 6, 7, 8], [9, 10]]
    ∧ runInference storeInf "L" [1, 2, 3, 4, 5, 6, 7, 8, 9, 10] (some 4)
        PredType.labels inferFnConst none =
      ([DbAct.insertPreds [rowOf 7 1, rowOf 7 2, rowOf 7 3, rowOf 7 4],
        DbAct.insertPreds [rowOf 7 5, rowOf 7 6, rowOf 7 7, rowOf 7 8],
        DbAct.insertPreds [rowOf 7 9, rowOf 7 10]], none) :=
  ⟨splitGo_flatten size ids.length ids (le_refl _),
   fun c hc => splitGo_le size hpos ids.length ids (le_refl _) c hc,
   fun i => splitGo_getD size hpos ids.length ids i (le_refl _),
   fun i hi => splitGo_nonlast size ids.length ids i (le_refl _) hi,
   rfl, rfl⟩

/-- C2 witness: the partition properties at ids `[1, 2, 3]` with limit 2. -/
theorem array_split_partition_and_batched_commits_inst :
    (array_split [1, 2, 3] 2).flatten = [1, 2, 3]
    ∧ (array_split [1, 2, 3] 2).getD 1 [] = [3] :=
  ⟨(array_split_partition_and_batched_commits [1, 2, 3] 2 (by decide) (by decide)).1,
   (array_split_partition_and_batched_commits [1, 2, 3] 2 (by decide)
      (by decide)).2.2.1 1⟩

/-- C3: chunks are committed independently and sequentially — when the
chunks split as a prefix whose steps all succeed, a failing chunk, and a
remainder, the run's issued actions are exactly the concatenation of the
successful prefix's actions (their prediction inserts and feature-vector
upserts stay committed, nothing is rolled back), the run stops with the
failing chunk's error, and nothing from the failing chunk or any later chunk
is issued. -/
theorem runInference_earlier_chunks_persist_on_failure (store : List CnnStateRow)
    (lib : String) (ids : List Nat) (n : Int) (pt : PredType)
    (f : List Nat → Except PyErr ResultMap)
    (rk : Option (ResultMap → Except PyErr ResultMap))
    (pre post : List (List Nat)) (cfail : List Nat)
    (actsList : List (List DbAct)) (e : PyErr)
    (hchunks : chunkList ids (some n) = pre ++ cfail :: post)
    (hok : List.Forall₂
      (fun c a => chunkStep pt ((latestState store lib).map CnnStateRow.id) f rk
        (some n) 0 c = Except.ok a) pre actsList)
    (hfail : chunkStep pt ((latestState store lib).map CnnStateRow.id) f rk
      (some n) 0 cfail = Except.error e) :
    runInference store lib ids (some n) pt f rk = (actsList.flatten, some e) := by
  simp only [runInference, hchunks]
  exact runChunks_append_error pt _ f rk n post cfail e pre actsList hok hfail 0

/-- C3 witness: ids `[1, 2, 3, 4]` with limit 2 and an adapter failing on the
second chunk `[3, 4]`: the first chunk's insert stays committed and the run
stops with the second chunk's error. -/
theorem runInference_earlier_chunks_persist_on_failure_inst :
    runInference storeInf "L" [1, 2, 3, 4] (some 2) PredType.labels
      inferFnFail34 none =
      ([DbAct.insertPreds [rowOf 7 1, rowOf 7 2]], some PyErr.valueError) :=
  runInference_earlier_chunks_persist_on_failure storeInf "L" [1, 2, 3, 4] 2
    PredType.labels inferFnFail34 none [[1, 2]] [] [3, 4]
    [[DbAct.insertPreds [rowOf 7 1, rowOf 7 2]]] PyErr.valueError rfl
    (List.Forall₂.cons rfl List.Forall₂.nil) rfl

/-- C8: for the segmentation-mask prediction type, every committed prediction
row stores a base64-encoded label array (byte-cast and raveled) together
with a width equal to that array's row length and a height equal to its row
count — the dimensions are derived from the shape of the encoded 2D label
array (which, per lines 489-496, is always the image's *first* prediction's
`label` array) and, as the second conjunct shows for every prediction
dictionary, the `width` / `height` columns never read the caller-supplied
`width` / `height` entries of the prediction. -/
theorem segmentation_rows_dims_from_encoded_array (st : Option Nat)
    (result : ResultMap) (vp : List (List PVal)) (vi : List (Nat × List Nat))
    (row : List PVal)
    (h : parseResult PredType.segmentationMasks st result = Except.ok (vp, vi))
    (hrow : row ∈ vp) :
    (∃ imgID res a, (imgID, res) ∈ result ∧
        (res.predictions.head?.bind (fun p0 => p0.lookup "label")) = some (PVal.vArr a) ∧
        rowField PredType.segmentationMasks row "segmentationmask"
          = some (PVal.vMaskEnc ((a.flatten).map (fun v => v % 256))) ∧
        rowField PredType.segmentationMasks row "width"
          = some (PVal.vNum ((a.headD []).length : Rat)) ∧
        rowField PredType.segmentationMasks row "height"
          = some (PVal.vNum (a.length : Rat)))
    ∧ ∀ (p : PyDict) (si : SegInfo),
        widthHeightVal PredType.segmentationMasks (some si) p "width"
          = Except.ok (PVal.vNum (si.width : Rat))
        ∧ widthHeightVal PredType.segmentationMasks (some si) p "height"
          = Except.ok (PVal.vNum (si.height : Rat)) := by
  constructor
  · obtain ⟨imgID, res, p, hmem, hp, hproj⟩ :=
      parseResult_mem_inv PredType.segmentationMasks st result vp vi row h hrow
    rw [projectPrediction, if_pos rfl] at hproj
    cases hsi : computeSegInfo res.predictions with
    | error e => rw [hsi] at hproj; simp at hproj
    | ok si =>
      rw [hsi] at hproj
      dsimp only at hproj
      cases hpreds : res.predictions with
      | nil => rw [hpreds] at hsi; simp [computeSegInfo] at hsi
      | cons p0 rest0 =>
        rw [hpreds] at hsi
        rw [computeSegInfo] at hsi
        cases hlab : p0.lookup "label" with
        | none => rw [hlab] at hsi; dsimp only at hsi; simp at hsi
        | some v =>
          rw [hlab] at hsi
          cases v with
          | vNull => dsimp only at hsi; simp at hsi
          | vNum q => dsimp only at hsi; simp at hsi
          | vId n2 => dsimp only at hsi; simp at hsi
          | vMaskEnc bs => dsimp only at hsi; simp at hsi
          | vArr a =>
            dsimp only at hsi
            cases hshape : npShape2 a with
            | error e => rw [hshape] at hsi; simp at hsi
            | ok hw =>
              rw [hshape] at hsi
              dsimp only at hsi
              have hsi2 :
                  (⟨(a.flatten).map (fun v => v % 256), hw.2, hw.1⟩ : SegInfo) = si :=
                Except.ok.inj hsi
              cases a with
              | nil => simp [npShape2] at hshape
              | cons r0 arest =>
                have hshape2 : (arest.length + 1, r0.length) = hw := by
                  rw [npShape2] at hshape
                  by_cases hall : arest.all (fun r => r.length = r0.length)
                  · rw [if_pos hall] at hshape
                    exact Except.ok.inj hshape
                  · rw [if_neg hall] at hshape
                    simp at hshape
                have hfn : fieldNamesFull PredType.segmentationMasks =
                    "segmentationmask" :: "priority" :: "width" :: "height" ::
                    "image" :: "cnnstate" :: [] := rfl
                rw [hfn] at hproj
                obtain ⟨v0, o1, hv0, hm1, he0⟩ := exMapM_cons_inv _ _ _ _ hproj
                obtain ⟨v1, o2, hv1, hm2, he1⟩ := exMapM_cons_inv _ _ _ _ hm1
                obtain ⟨v2, o3, hv2, hm3, he2⟩ := exMapM_cons_inv _ _ _ _ hm2
                obtain ⟨v3, o4, hv3, hm4, he3⟩ := exMapM_cons_inv _ _ _ _ hm3
                obtain ⟨v4, o5, hv4, hm5, he4⟩ := exMapM_cons_inv _ _ _ _ hm4
                obtain ⟨v5, o6, hv5, hm6, he5⟩ := exMapM_cons_inv _ _ _ _ hm5
                have ho6 : o6 = [] := by
                  simp only [exMapM] at hm6
                  exact (Except.ok.inj hm6).symm
                subst ho6 he5 he4 he3 he2 he1 he0
                have hv0e : PVal.vMaskEnc si.encMask = v0 := Except.ok.inj hv0
                have hv2e : PVal.vNum (si.width : Rat) = v2 := Except.ok.inj hv2
                have hv3e : PVal.vNum (si.height : Rat) = v3 := Except.ok.inj hv3
                refine ⟨imgID, res, r0 :: arest, hmem, ?_, ?_, ?_, ?_⟩
                · rw [hpreds]
                  simp [hlab]
                · rw [show rowField PredType.segmentationMasks
                      (v0 :: v1 :: v2 :: v3 :: v4 :: v5 :: []) "segmentationmask"
                      = some v0 from rfl]
                  rw [← hv0e, ← hsi2]
                · rw [show rowField PredType.segmentationMasks
                      (v0 :: v1 :: v2 :: v3 :: v4 :: v5 :: []) "width" = some v2 from rfl]
                  rw [← hv2e, ← hsi2]
                  have hw2 : hw.2 = r0.length := by rw [← hshape2]
                  simp [hw2]
                · rw [show rowField PredType.segmentationMasks
                      (v0 :: v1 :: v2 :: v3 :: v4 :: v5 :: []) "height" = some v3 from rfl]
                  rw [← hv3e, ← hsi2]
                  have hw1 : hw.1 = arest.length + 1 := by rw [← hshape2]
                  simp [hw1]
  · intro p si
    exact ⟨rfl, rfl⟩

/-- C8 witness: the two-prediction segmentation result: the second
prediction's committed row carries the encoded array and shape-derived
dimensions (of the image's first prediction), not its caller-supplied
width 99 / height 98. -/
theorem segmentation_rows_dims_from_encoded_array_inst :
    ∃ imgID res a, (imgID, res) ∈ resultSeg ∧
      (res.predictions.head?.bind (fun p0 => p0.lookup "label")) = some (PVal.vArr a) ∧
      rowField PredType.segmentationMasks segRowB "segmentationmask"
        = some (PVal.vMaskEnc ((a.flatten).map (fun v => v % 256))) ∧
      rowField PredType.segmentationMasks segRowB "width"
        = some (PVal.vNum ((a.headD []).length : Rat)) ∧
      rowField PredType.segmentationMasks segRowB "height"
        = some (PVal.vNum (a.length : Rat)) :=
  (segmentation_rows_dims_from_encoded_array (some 7) resultSeg [segRowA, segRowB]
    [] segRowB rfl (List.mem_cons_of_mem _ (List.mem_cons_self _ _))).1

/-- C10: `__load_model_state` returns the row with the most recent creation
time for the library with no regard to its partial flag — the returned row
is a library row of maximal `timeCreated` among all of the library's rows,
partial or not — and every prediction row committed by `_call_inference`
references exactly that row's id in its final `cnnstate` column; in
particular, when the newest row is a transient partial state, the committed
predictions reference the partial state's id. -/
theorem latestState_newest_row_feeds_predictions (store : List CnnStateRow)
    (lib : String) (r : CnnStateRow) (h : latestState store lib = some r) :
    (r ∈ store ∧ r.modelLib = lib ∧
      ∀ s ∈ store, s.modelLib = lib → s.timeCreated ≤ r.timeCreated)
    ∧ ∀ (ids : List Nat) (lim : Option Int) (pt : PredType)
        (f : List Nat → Except PyErr ResultMap)
        (rk : Option (ResultMap → Except PyErr ResultMap)) (rows : List (List PVal)),
        DbAct.insertPreds rows ∈ (runInference store lib ids lim pt f rk).1 →
        ∀ row ∈ rows, row.getLast? = some (PVal.vId r.id) := by
  refine ⟨latestState_spec store lib r h, ?_⟩
  intro ids lim pt f rk rows hmem row hrow
  have h2 := runChunks_insert_mem pt ((latestState store lib).map CnnStateRow.id) f rk
    lim (chunkList ids lim) 0 rows hmem row hrow
  rw [h] at h2
  exact h2

/-- C10 witness: in `storeNewestPart` the newest library row is the partial
row id 2, it is what the state loader returns, and the prediction row
committed for image 9 references state id 2. -/
theorem latestState_newest_row_feeds_predictions_inst :
    latestState storeNewestPart "L" = some ⟨2, 20, true, "L", "A", 22, none⟩
    ∧ (rowOf 2 9).getLast? = some (PVal.vId 2) := by
  refine ⟨rfl, ?_⟩
  exact (latestState_newest_row_feeds_predictions storeNewestPart "L"
      ⟨2, 20, true, "L", "A", 22, none⟩ rfl).2 [9] (some 4) PredType.labels
    inferFnConst none [rowOf 2 9]
    (by
      rw [show (runInference storeNewestPart "L" [9] (some 4) PredType.labels
          inferFnConst none).1 = [DbAct.insertPreds [rowOf 2 9]] from rfl]
      exact List.mem_cons_self _ _)
    (rowOf 2 9) (List.mem_cons_self _ _)
